import Mathlib

/-!
Verification of the 1D heat-equation solver (`heat_equation.py`).

The Python class `HeatEquationSolver` stores a config dictionary, a field
`u : List float`, and derived steps `dx`, `dt`.  We embed floats as `ℚ`
(exact arithmetic with the same fixed evaluation order), a JSON config
dictionary as a record of `Option` fields (a missing key is `none`), and a
Python `KeyError` on dictionary access as `Except.error`.
-/

namespace HeatEq

/-- The configuration dictionary as loaded from JSON: each required key of
`heat_equation.py` may be present (`some`) or absent (`none`). -/
structure RawConfig where
  length : Option ℚ
  num_points_x : Option ℕ
  total_time : Option ℚ
  num_points_t : Option ℕ
  alpha : Option ℚ
deriving DecidableEq, Repr

/-- Python dictionary access `config[key]`: raises `KeyError` when absent. -/
def dictGet {α : Type} : Option α → Except String α
  | some v => Except.ok v
  | none => Except.error "KeyError"

/-- The mutable state of a `HeatEquationSolver` instance: the config,
the field `u`, and the derived spatial and time steps. -/
structure SolverState where
  config : RawConfig
  u : List ℚ
  dx : ℚ
  dt : ℚ
deriving DecidableEq, Repr

/-- The initial field built by `_initialize_grid`:
`u = [0.0] * nx` then `u[nx // 2] = 1.0` (a unit impulse).
For `nx = 0` Python's `self.u[0] = 1.0` raises `IndexError` while the
out-of-range `List.set` is a no-op, so this is faithful only for
`nx ≥ 1`; theorems about successful construction restrict accordingly. -/
def initField (nx : ℕ) : List ℚ := (List.replicate nx (0 : ℚ)).set (nx / 2) 1

/-- `HeatEquationSolver._initialize_grid` (together with `__init__` after the
config load): reads `length`, `num_points_x`, `total_time`, `num_points_t`
from the config (each read may raise `KeyError`), computes
`dx = length / (nx - 1)` and `dt = total_time / nt`, and builds the field
`u = [0.0] * nx` with `u[nx // 2] = 1.0`.  The four reads happen before any
arithmetic, exactly as in lines 62-65 of the source, so a missing key
raises `KeyError` regardless of the other values.  ℚ division is total
(`x / 0 = 0`), so the Python `ZeroDivisionError` paths (`nx = 1`, `nt = 0`)
and the `IndexError` path of `initField` (`nx = 0`) are not modelled;
theorems asserting successful construction therefore carry the
well-formedness side conditions (`3 ≤ nx`, `1 ≤ nt`, ...). -/
def initializeGrid (cfg : RawConfig) : Except String SolverState := do
  let length ← dictGet cfg.length
  let nx ← dictGet cfg.num_points_x
  let total_time ← dictGet cfg.total_time
  let nt ← dictGet cfg.num_points_t
  let dx := length / ((nx : ℚ) - 1)
  let dt := total_time / (nt : ℚ)
  let u := initField nx
  pure { config := cfg, u := u, dx := dx, dt := dt }

/-- The value written at interior index `i`, reading the old field `u`:
`u[i] + r * (u[i+1] - 2*u[i] + u[i-1])`. -/
def updVal (r : ℚ) (u : List ℚ) (i : ℕ) : ℚ :=
  u.getD i 0 + r * (u.getD (i+1) 0 - 2 * u.getD i 0 + u.getD (i-1) 0)

/-- The inner loop of `solve`: `u_new = self.u[:]`, then
`for i in range(1, nx - 1): u_new[i] = u[i] + r * (u[i+1] - 2*u[i] + u[i-1])`,
all reads taken from the old field `u`.  `List.range' 1 (nx - 2)` is
`[1, ..., nx-2]`, exactly Python's `range(1, nx - 1)`. -/
def innerLoop (r : ℚ) (u : List ℚ) (nx : ℕ) : List ℚ :=
  (List.range' 1 (nx - 2)).foldl (fun u_new i => u_new.set i (updVal r u i)) u

/-- The time-stepping loop of `solve`: `nt` iterations, each building
`u_new` from the live field, replacing the live field with it and appending
a copy to `results`. Returns the accumulated `results` and the final field. -/
def solveLoop (r : ℚ) (nx : ℕ) : ℕ → List (List ℚ) → List ℚ → List (List ℚ) × List ℚ
  | 0, results, u => (results, u)
  | Nat.succ n, results, u =>
      let u_new := innerLoop r u nx
      solveLoop r nx n (results ++ [u_new]) u_new

/-- `HeatEquationSolver.solve`: reads `alpha`, `num_points_x`, `num_points_t`
from the config (each read may raise `KeyError`), computes
`r = alpha * dt / dx ** 2`, records whether the stability warning `r > 0.5`
is printed, starts `results = [self.u[:]]` and runs the stepping loop.
Returns the warning flag, the history, and the updated instance state. -/
def solve (s : SolverState) : Except String (Bool × List (List ℚ) × SolverState) := do
  let alpha ← dictGet s.config.alpha
  let nx ← dictGet s.config.num_points_x
  let nt ← dictGet s.config.num_points_t
  let r := alpha * s.dt / s.dx ^ 2
  let warned := decide ((1 : ℚ)/2 < r)
  let res := solveLoop r nx nt [s.u] s.u
  pure (warned, res.1, { s with u := res.2 })

/-- A config record with all five required keys present. -/
structure Config where
  length : ℚ
  num_points_x : ℕ
  total_time : ℚ
  num_points_t : ℕ
  alpha : ℚ
deriving DecidableEq, Repr

/-- The raw dictionary holding exactly the five keys of a full `Config`. -/
def Config.toRaw (c : Config) : RawConfig :=
  { length := some c.length
    num_points_x := some c.num_points_x
    total_time := some c.total_time
    num_points_t := some c.num_points_t
    alpha := some c.alpha }

/-- Validity constraints on a config (spec §3). -/
def Config.Valid (c : Config) : Prop :=
  0 < c.length ∧ 3 ≤ c.num_points_x ∧ 0 < c.total_time ∧
    1 ≤ c.num_points_t ∧ 0 < c.alpha

instance (c : Config) : Decidable c.Valid := by
  unfold Config.Valid; infer_instance

/-- `dx = length / (numPointsX - 1)`. -/
def Config.dxVal (c : Config) : ℚ := c.length / ((c.num_points_x : ℚ) - 1)

/-- `dt = totalTime / numPointsT`. -/
def Config.dtVal (c : Config) : ℚ := c.total_time / (c.num_points_t : ℚ)

/-- The diffusion number `r = alpha * dt / dx ** 2`. -/
def Config.rVal (c : Config) : ℚ := c.alpha * c.dtVal / c.dxVal ^ 2

/-- Construct a solver from a full config and run `solve` once. -/
def runSolver (c : Config) : Except String (Bool × List (List ℚ) × SolverState) :=
  initializeGrid c.toRaw >>= solve

/-- The field after `n` applications of the inner loop. -/
def fieldAt (r : ℚ) (nx : ℕ) (u : List ℚ) : ℕ → List ℚ
  | 0 => u
  | n + 1 => innerLoop r (fieldAt r nx u n) nx

/-- The history produced by the first call to `solve` on a solver freshly
constructed from the full config `c`: snapshots of the field after
`0, 1, ..., numPointsT` steps. -/
def solverHistory (c : Config) : List (List ℚ) :=
  (List.range (c.num_points_t + 1)).map
    (fun k => fieldAt c.rVal c.num_points_x (initField c.num_points_x) k)

/-- The solver state after the first call to `solve` on a solver freshly
constructed from the full config `c`. -/
def solverFinal (c : Config) : SolverState :=
  { config := c.toRaw
    u := fieldAt c.rVal c.num_points_x (initField c.num_points_x) c.num_points_t
    dx := c.dxVal
    dt := c.dtVal }

/-- A small valid config with `r = 4 > 0.5` (unstable regime):
`length = 1`, `numPointsX = 3`, `totalTime = 1`, `numPointsT = 1`, `alpha = 1`. -/
def cfgW : Config := ⟨1, 3, 1, 1, 1⟩

/-- A small valid config with `r = 1/2` (stable regime):
like `cfgW` but with `alpha = 1/8`. -/
def cfgS : Config := ⟨1, 3, 1, 1, 1/8⟩

/-- The raw dictionary of a full config with the `alpha` key removed:
an otherwise well-formed config lacking only `alpha`. -/
def dropAlpha (c : Config) : RawConfig :=
  { length := some c.length
    num_points_x := some c.num_points_x
    total_time := some c.total_time
    num_points_t := some c.num_points_t
    alpha := none }

/-- The test-suite config (`test_heat_equation.py`). -/
def cfgT : Config := ⟨1, 10, 1/100, 10, 1/100⟩

/-- The test-suite config but with the `alpha` key removed. -/
def rcNoAlpha : RawConfig :=
  ⟨some 1, some 10, some (1/100), some 10, none⟩

/-- The history produced by a second call to `solve` on the same instance:
it continues from the field left by the first call. -/
def secondHistory (c : Config) : List (List ℚ) :=
  (List.range (c.num_points_t + 1)).map
    (fun k => fieldAt c.rVal c.num_points_x (solverFinal c).u k)

/-! ### Lemmas about the index loop -/

lemma foldl_set_length (f : ℕ → ℚ) (l : List ℕ) (acc : List ℚ) :
    (l.foldl (fun a i => a.set i (f i)) acc).length = acc.length := by
  induction l generalizing acc with
  | nil => rfl
  | cons i l ih => simp [List.foldl_cons, ih, List.length_set]

lemma foldl_set_getElem? (f : ℕ → ℚ) (l : List ℕ) (acc : List ℚ) (j : ℕ) :
    (l.foldl (fun a i => a.set i (f i)) acc)[j]? =
      if j ∈ l ∧ j < acc.length then some (f j) else acc[j]? := by
  induction l generalizing acc with
  | nil => simp
  | cons i l ih =>
    rw [List.foldl_cons, ih]
    by_cases hjl : j ∈ l
    · by_cases hlen : j < acc.length
      · simp [hjl, hlen, List.length_set]
      · simp only [List.length_set, hjl, hlen, and_false, if_false, List.mem_cons,
          true_or, or_true, and_true]
        rw [List.getElem?_eq_none (by simpa using Nat.le_of_not_lt hlen),
          List.getElem?_eq_none (by simpa [List.length_set] using Nat.le_of_not_lt hlen)]
    · by_cases hij : i = j
      · subst hij
        by_cases hlen : i < acc.length
        · simp [hjl, hlen, List.length_set, List.getElem?_set, if_pos rfl]
        · simp only [List.length_set, hjl, hlen, and_false, if_false, List.mem_cons,
            and_true, false_or]
          rw [List.getElem?_eq_none (by simpa [List.length_set] using Nat.le_of_not_lt hlen)]
          simp [List.getElem?_eq_none (Nat.le_of_not_lt hlen), hlen]
      · simp [hjl, hij, List.getElem?_set_ne hij, Ne.symm hij]

lemma innerLoop_length (r : ℚ) (u : List ℚ) (nx : ℕ) :
    (innerLoop r u nx).length = u.length :=
  foldl_set_length _ _ _

lemma mem_range'_interior (nx j : ℕ) :
    j ∈ List.range' 1 (nx - 2) ↔ 1 ≤ j ∧ j < nx - 1 := by
  simp only [List.mem_range']
  constructor
  · rintro ⟨i, hi, rfl⟩
    omega
  · rintro ⟨h1, h2⟩
    exact ⟨j - 1, by omega, by omega⟩

lemma innerLoop_getElem? (r : ℚ) (u : List ℚ) (nx j : ℕ) :
    (innerLoop r u nx)[j]? =
      if (1 ≤ j ∧ j < nx - 1) ∧ j < u.length then some (updVal r u j) else u[j]? := by
  rw [innerLoop, foldl_set_getElem?]
  simp only [mem_range'_interior]

lemma innerLoop_getD_interior (r : ℚ) (u : List ℚ) (nx j : ℕ)
    (h1 : 1 ≤ j) (h2 : j < nx - 1) (h3 : j < u.length) :
    (innerLoop r u nx).getD j 0 = updVal r u j := by
  rw [List.getD_eq_getElem?_getD, innerLoop_getElem?, if_pos ⟨⟨h1, h2⟩, h3⟩,
    Option.getD_some]

lemma innerLoop_getD_frame (r : ℚ) (u : List ℚ) (nx j : ℕ)
    (h : ¬(1 ≤ j ∧ j < nx - 1)) :
    (innerLoop r u nx).getD j 0 = u.getD j 0 := by
  rw [List.getD_eq_getElem?_getD, innerLoop_getElem?, List.getD_eq_getElem?_getD]
  simp [h]

/-! ### Lemmas about the stepping loop -/

lemma fieldAt_length (r : ℚ) (nx : ℕ) (u : List ℚ) (n : ℕ) :
    (fieldAt r nx u n).length = u.length := by
  induction n with
  | zero => rfl
  | succ n ih => rw [fieldAt, innerLoop_length, ih]

lemma fieldAt_one (r : ℚ) (nx : ℕ) (u : List ℚ) :
    fieldAt r nx u 1 = innerLoop r u nx := by
  simp [fieldAt]

lemma fieldAt_innerLoop (r : ℚ) (nx : ℕ) (u : List ℚ) (n : ℕ) :
    fieldAt r nx (innerLoop r u nx) n = fieldAt r nx u (n + 1) := by
  induction n with
  | zero => rfl
  | succ n ih =>
    simp only [fieldAt]
    rw [ih, fieldAt]

lemma solveLoop_fst (r : ℚ) (nx : ℕ) (n : ℕ) (results : List (List ℚ)) (u : List ℚ) :
    (solveLoop r nx n results u).1 =
      results ++ (List.range n).map (fun k => fieldAt r nx u (k + 1)) := by
  induction n generalizing results u with
  | zero => simp [solveLoop]
  | succ n ih =>
    have hfun : (fun k => fieldAt r nx (innerLoop r u nx) (k + 1))
        = fun k => fieldAt r nx u (k + 1 + 1) :=
      funext fun k => fieldAt_innerLoop r nx u (k + 1)
    rw [solveLoop, ih, hfun, List.range_succ_eq_map]
    simp [fieldAt_one, Function.comp, List.map_map]

lemma solveLoop_snd (r : ℚ) (nx : ℕ) (n : ℕ) (results : List (List ℚ)) (u : List ℚ) :
    (solveLoop r nx n results u).2 = fieldAt r nx u n := by
  induction n generalizing results u with
  | zero => rfl
  | succ n ih => rw [solveLoop, ih, fieldAt_innerLoop]

lemma solveLoop_getLast? (r : ℚ) (nx : ℕ) (n : ℕ) (results : List (List ℚ))
    (u : List ℚ) (h : results.getLast? = some u) :
    (solveLoop r nx n results u).1.getLast? = some (solveLoop r nx n results u).2 := by
  induction n generalizing results u with
  | zero => exact h
  | succ n ih => exact ih _ _ (List.getLast?_concat _)

lemma solveLoop_fst_one (r : ℚ) (nx : ℕ) (n : ℕ) (u : List ℚ) :
    (solveLoop r nx n [u] u).1 =
      (List.range (n + 1)).map (fun k => fieldAt r nx u k) := by
  rw [solveLoop_fst, List.range_succ_eq_map]
  simp [List.map_map, Function.comp, fieldAt]

/-! ### Running the solver on a full config -/

lemma initializeGrid_toRaw (c : Config) :
    initializeGrid c.toRaw =
      Except.ok ⟨c.toRaw, initField c.num_points_x, c.dxVal, c.dtVal⟩ := rfl

lemma solve_toRaw (c : Config) (u : List ℚ) (dx dt : ℚ) :
    solve ⟨c.toRaw, u, dx, dt⟩ =
      Except.ok (decide ((1 : ℚ)/2 < c.alpha * dt / dx ^ 2),
        (List.range (c.num_points_t + 1)).map
          (fun k => fieldAt (c.alpha * dt / dx ^ 2) c.num_points_x u k),
        ⟨c.toRaw, fieldAt (c.alpha * dt / dx ^ 2) c.num_points_x u c.num_points_t,
          dx, dt⟩) := by
  show Except.ok (decide ((1 : ℚ)/2 < c.alpha * dt / dx ^ 2),
      (solveLoop (c.alpha * dt / dx ^ 2) c.num_points_x c.num_points_t [u] u).1,
      SolverState.mk c.toRaw
        (solveLoop (c.alpha * dt / dx ^ 2) c.num_points_x c.num_points_t [u] u).2
        dx dt) =
    Except.ok (decide ((1 : ℚ)/2 < c.alpha * dt / dx ^ 2),
      (List.range (c.num_points_t + 1)).map
        (fun k => fieldAt (c.alpha * dt / dx ^ 2) c.num_points_x u k),
      SolverState.mk c.toRaw
        (fieldAt (c.alpha * dt / dx ^ 2) c.num_points_x u c.num_points_t)
        dx dt)
  rw [solveLoop_fst_one, solveLoop_snd]

lemma runSolver_eq (c : Config) :
    runSolver c =
      Except.ok (decide ((1 : ℚ)/2 < c.rVal), solverHistory c, solverFinal c) := by
  rw [runSolver, initializeGrid_toRaw]
  show solve ⟨c.toRaw, initField c.num_points_x, c.dxVal, c.dtVal⟩ = _
  rw [solve_toRaw]
  rfl

lemma runSolver_inv {c : Config} {w : Bool} {hist : List (List ℚ)} {s' : SolverState}
    (h : runSolver c = Except.ok (w, hist, s')) :
    w = decide ((1 : ℚ)/2 < c.rVal) ∧ hist = solverHistory c ∧ s' = solverFinal c := by
  rw [runSolver_eq] at h
  simp only [Except.ok.injEq, Prod.mk.injEq] at h
  exact ⟨h.1.symm, h.2.1.symm, h.2.2.symm⟩

lemma solverHistory_length (c : Config) :
    (solverHistory c).length = c.num_points_t + 1 := by
  simp [solverHistory]

lemma solverHistory_getD (c : Config) (t : ℕ) (ht : t ≤ c.num_points_t) :
    (solverHistory c).getD t [] =
      fieldAt c.rVal c.num_points_x (initField c.num_points_x) t := by
  rw [solverHistory, List.getD_eq_getElem?_getD, List.getElem?_map,
    List.getElem?_range (by omega)]
  rfl

lemma solverHistory_getLast? (c : Config) :
    (solverHistory c).getLast? =
      some (fieldAt c.rVal c.num_points_x (initField c.num_points_x)
        c.num_points_t) := by
  rw [solverHistory, List.range_succ, List.map_append]
  simp

/-! ### The initial field -/

lemma initField_length (nx : ℕ) : (initField nx).length = nx := by
  simp [initField]

lemma initField_getD_mid (nx : ℕ) (h : 0 < nx) :
    (initField nx).getD (nx / 2) 0 = 1 := by
  rw [initField, List.getD_eq_getElem?_getD,
    List.getElem?_set_self (by simp; omega)]
  rfl

lemma initField_getD_other (nx j : ℕ) (hj : j ≠ nx / 2) :
    (initField nx).getD j 0 = 0 := by
  rw [initField, List.getD_eq_getElem?_getD, List.getElem?_set_ne (Ne.symm hj),
    List.getElem?_replicate]
  by_cases h : j < nx <;> simp [h]

/-! ### Frame and positivity facts -/

lemma fieldAt_getD_frame (r : ℚ) (nx : ℕ) (u : List ℚ) (n j : ℕ)
    (hj : ¬(1 ≤ j ∧ j < nx - 1)) :
    (fieldAt r nx u n).getD j 0 = u.getD j 0 := by
  induction n with
  | zero => rfl
  | succ n ih =>
    simp only [fieldAt]
    rw [innerLoop_getD_frame _ _ _ _ hj, ih]

lemma Config.dxVal_pos {c : Config} (hc : c.Valid) : 0 < c.dxVal := by
  obtain ⟨h1, h2, -, -, -⟩ := hc
  refine div_pos h1 ?_
  have : (3 : ℚ) ≤ (c.num_points_x : ℚ) := by exact_mod_cast h2
  linarith

lemma Config.dtVal_pos {c : Config} (hc : c.Valid) : 0 < c.dtVal := by
  obtain ⟨-, -, h3, h4, -⟩ := hc
  refine div_pos h3 ?_
  have : (1 : ℚ) ≤ (c.num_points_t : ℚ) := by exact_mod_cast h4
  linarith

lemma Config.rVal_pos {c : Config} (hc : c.Valid) : 0 < c.rVal :=
  div_pos (mul_pos hc.2.2.2.2 (Config.dtVal_pos hc)) (pow_pos (Config.dxVal_pos hc) 2)

/-! ### The non-amplification bound -/

lemma updVal_le {r B : ℚ} (hr0 : 0 ≤ r) (hr : r ≤ 1/2) {u : List ℚ} {i : ℕ}
    (h1 : 1 ≤ i) (h2 : i + 1 < u.length) (hB : ∀ y ∈ u, y ≤ B) :
    updVal r u i ≤ B := by
  have ha : u.getD i 0 ≤ B := by
    rw [List.getD_eq_getElem u 0 (show i < u.length by omega)]
    exact hB _ (List.getElem_mem _)
  have hb : u.getD (i + 1) 0 ≤ B := by
    rw [List.getD_eq_getElem u 0 h2]
    exact hB _ (List.getElem_mem _)
  have hc : u.getD (i - 1) 0 ≤ B := by
    rw [List.getD_eq_getElem u 0 (show i - 1 < u.length by omega)]
    exact hB _ (List.getElem_mem _)
  rw [updVal]
  nlinarith [mul_nonneg hr0 (sub_nonneg.mpr hb), mul_nonneg hr0 (sub_nonneg.mpr hc),
    mul_nonneg (by linarith : (0 : ℚ) ≤ 1 - 2 * r) (sub_nonneg.mpr ha)]

lemma innerLoop_le {r B : ℚ} (hr0 : 0 ≤ r) (hr : r ≤ 1/2) {u : List ℚ} {nx : ℕ}
    (hlen : u.length = nx) (hB : ∀ y ∈ u, y ≤ B) :
    ∀ x ∈ innerLoop r u nx, x ≤ B := by
  intro x hx
  obtain ⟨j, hj, hxj⟩ := List.getElem_of_mem hx
  have hj' : j < u.length := by rwa [innerLoop_length] at hj
  have hval := innerLoop_getElem? r u nx j
  rw [List.getElem?_eq_getElem hj, hxj] at hval
  by_cases hcond : (1 ≤ j ∧ j < nx - 1) ∧ j < u.length
  · rw [if_pos hcond, Option.some.injEq] at hval
    rw [hval]
    exact updVal_le hr0 hr hcond.1.1 (by omega) hB
  · rw [if_neg hcond] at hval
    have : x ∈ u := by
      have hxu : u[j]? = some x := hval.symm
      exact List.getElem?_mem hxu
    exact hB _ this

/-- Reading a snapshot out of a mapped trajectory. -/
lemma histMap_getD (r : ℚ) (nx : ℕ) (u : List ℚ) (n t : ℕ) (ht : t ≤ n) :
    ((List.range (n + 1)).map (fun k => fieldAt r nx u k)).getD t [] =
      fieldAt r nx u t := by
  rw [List.getD_eq_getElem?_getD, List.getElem?_map, List.getElem?_range (by omega)]
  rfl

/-! ## Claims -/

/-- Claim C1: for every valid config, each time step of `solve` updates every
interior index `i` in `1 .. numPointsX - 2` by the explicit FTCS recurrence
`newField[i] = field[i] + r * (field[i+1] - 2*field[i] + field[i-1])`, where
`r = alpha * dt / dx^2`, `dx = length / (numPointsX - 1)` and
`dt = totalTime / numPointsT`, and `field` is the previous snapshot. -/
theorem heat_C1 (c : Config) (hc : c.Valid) (w : Bool) (hist : List (List ℚ))
    (s' : SolverState) (h : runSolver c = Except.ok (w, hist, s'))
    (t : ℕ) (ht : t < c.num_points_t) (i : ℕ) (hi1 : 1 ≤ i)
    (hi2 : i ≤ c.num_points_x - 2) :
    (hist.getD (t + 1) []).getD i 0 =
      (hist.getD t []).getD i 0 +
        c.rVal * ((hist.getD t []).getD (i + 1) 0 -
          2 * (hist.getD t []).getD i 0 + (hist.getD t []).getD (i - 1) 0) := by
  obtain ⟨-, hh, -⟩ := runSolver_inv h
  subst hh
  have hnx := hc.2.1
  rw [solverHistory_getD c (t + 1) (by omega), solverHistory_getD c t (by omega)]
  have hlen : (fieldAt c.rVal c.num_points_x (initField c.num_points_x) t).length
      = c.num_points_x := by rw [fieldAt_length, initField_length]
  show (innerLoop c.rVal (fieldAt c.rVal c.num_points_x (initField c.num_points_x) t)
      c.num_points_x).getD i 0 = _
  rw [innerLoop_getD_interior _ _ _ _ hi1 (by omega) (by omega)]
  rfl

/-- Claim C2: for every valid config, the history returned by `solve` has
exactly `numPointsT + 1` entries, appended in step order (the initial field
followed by one inner-loop image per step), and every entry has length
`numPointsX`. -/
theorem heat_C2 (c : Config) (hc : c.Valid) (w : Bool) (hist : List (List ℚ))
    (s' : SolverState) (h : runSolver c = Except.ok (w, hist, s')) :
    hist.length = c.num_points_t + 1 ∧
    (∀ f ∈ hist, f.length = c.num_points_x) ∧
    hist.getD 0 [] = initField c.num_points_x ∧
    ∀ t < c.num_points_t,
      hist.getD (t + 1) [] = innerLoop c.rVal (hist.getD t []) c.num_points_x := by
  obtain ⟨-, hh, -⟩ := runSolver_inv h
  subst hh
  refine ⟨solverHistory_length c, ?_, ?_, ?_⟩
  · intro f hf
    rw [solverHistory] at hf
    obtain ⟨k, -, rfl⟩ := List.mem_map.mp hf
    rw [fieldAt_length, initField_length]
  · rw [solverHistory_getD c 0 (by omega)]
    rfl
  · intro t ht
    rw [solverHistory_getD c t (by omega), solverHistory_getD c (t + 1) (by omega)]
    rfl

/-- Claim C3: for every valid config and every snapshot of the returned
history, the boundary entries at index `0` and index `numPointsX - 1` are
zero (the recurrence never updates them, and they start at zero). -/
theorem heat_C3 (c : Config) (hc : c.Valid) (w : Bool) (hist : List (List ℚ))
    (s' : SolverState) (h : runSolver c = Except.ok (w, hist, s'))
    (t : ℕ) (ht : t ≤ c.num_points_t) :
    (hist.getD t []).getD 0 0 = 0 ∧
    (hist.getD t []).getD (c.num_points_x - 1) 0 = 0 := by
  obtain ⟨-, hh, -⟩ := runSolver_inv h
  subst hh
  have hnx := hc.2.1
  rw [solverHistory_getD c t ht]
  constructor
  · rw [fieldAt_getD_frame _ _ _ _ _ (by omega)]
    exact initField_getD_other _ _ (by omega)
  · rw [fieldAt_getD_frame _ _ _ _ _ (by omega)]
    exact initField_getD_other _ _ (by omega)

/-- Claim C4: for every valid config, the first history entry of the first
call to `solve` is the unit impulse: value `1` at index `numPointsX // 2`
(integer division) and `0` everywhere else. -/
theorem heat_C4 (c : Config) (hc : c.Valid) (w : Bool) (hist : List (List ℚ))
    (s' : SolverState) (h : runSolver c = Except.ok (w, hist, s')) :
    (hist.getD 0 []).getD (c.num_points_x / 2) 0 = 1 ∧
    ∀ i < c.num_points_x, i ≠ c.num_points_x / 2 → (hist.getD 0 []).getD i 0 = 0 := by
  obtain ⟨-, hh, -⟩ := runSolver_inv h
  subst hh
  have hnx := hc.2.1
  rw [solverHistory_getD c 0 (by omega)]
  exact ⟨initField_getD_mid _ (by omega), fun i _ hi => initField_getD_other _ _ hi⟩

/-- Claim C6 (amendable part: none — as stated): the stability check is
advisory only: for every valid config `solve` completes and returns the full
history of `numPointsT + 1` entries; the warning flag is set if and only if
`r > 0.5`; and the history is `solverHistory c`, a value whose definition
does not consult the threshold at all. -/
theorem heat_C6 (c : Config) (hc : c.Valid) :
    ∃ w hist s', runSolver c = Except.ok (w, hist, s') ∧
      hist.length = c.num_points_t + 1 ∧
      hist = solverHistory c ∧
      (w = true ↔ (1 : ℚ)/2 < c.rVal) := by
  refine ⟨_, _, _, runSolver_eq c, solverHistory_length c, rfl, ?_⟩
  simp

/-- Claim C7: in the stable regime `r ≤ 0.5`, consecutive snapshots are
non-amplifying: every entry of snapshot `t+1` is bounded by the maximum
entry of snapshot `t`. -/
theorem heat_C7 (c : Config) (hc : c.Valid) (hr : c.rVal ≤ 1/2) (w : Bool)
    (hist : List (List ℚ)) (s' : SolverState)
    (h : runSolver c = Except.ok (w, hist, s'))
    (t : ℕ) (ht : t < c.num_points_t) :
    ∃ M : ℚ, (hist.getD t []).maximum = (M : WithBot ℚ) ∧
      ∀ x ∈ hist.getD (t + 1) [], x ≤ M := by
  obtain ⟨-, hh, -⟩ := runSolver_inv h
  subst hh
  have hnx := hc.2.1
  rw [solverHistory_getD c t (by omega), solverHistory_getD c (t + 1) (by omega)]
  have hlen : (fieldAt c.rVal c.num_points_x (initField c.num_points_x) t).length
      = c.num_points_x := by rw [fieldAt_length, initField_length]
  have hbot : (fieldAt c.rVal c.num_points_x (initField c.num_points_x) t).maximum ≠ ⊥ :=
    List.maximum_ne_bot_of_length_pos (by omega)
  obtain ⟨M, hM⟩ := WithBot.ne_bot_iff_exists.mp hbot
  refine ⟨M, hM.symm, ?_⟩
  intro x hx
  have hB : ∀ y ∈ fieldAt c.rVal c.num_points_x (initField c.num_points_x) t, y ≤ M :=
    fun y hy => List.le_maximum_of_mem hy hM.symm
  exact innerLoop_le (le_of_lt (Config.rVal_pos hc)) hr hlen hB x hx

/-- Claim C8: `solve` is deterministic in the config: two solver instances
constructed from identical raw configs produce identical results on their
first `solve` call. -/
theorem heat_C8 (rc : RawConfig) (s1 s2 : SolverState)
    (h1 : initializeGrid rc = Except.ok s1)
    (h2 : initializeGrid rc = Except.ok s2) :
    solve s1 = solve s2 := by
  have hs : s1 = s2 := Except.ok.inj (h1.symm.trans h2)
  rw [hs]

/-- Claim C9: a second call to `solve` on the same instance continues from
the field left by the first call: the second history starts at the last
entry of the first history, and again has `numPointsT + 1` entries. -/
theorem heat_C9 (c : Config) (hc : c.Valid) (w1 : Bool) (hist1 : List (List ℚ))
    (s1 : SolverState) (h1 : runSolver c = Except.ok (w1, hist1, s1))
    (w2 : Bool) (hist2 : List (List ℚ)) (s2 : SolverState)
    (h2 : solve s1 = Except.ok (w2, hist2, s2)) :
    hist1.getLast? = some (hist2.getD 0 []) ∧
    hist2.length = c.num_points_t + 1 := by
  obtain ⟨-, hh1, hs1⟩ := runSolver_inv h1
  subst hh1
  subst hs1
  rw [show solverFinal c = SolverState.mk c.toRaw
      (fieldAt c.rVal c.num_points_x (initField c.num_points_x) c.num_points_t)
      c.dxVal c.dtVal from rfl, solve_toRaw] at h2
  simp only [Except.ok.injEq, Prod.mk.injEq] at h2
  obtain ⟨-, hh2, -⟩ := h2
  constructor
  · rw [solverHistory_getLast?, ← hh2,
      histMap_getD _ _ _ _ 0 (by omega)]
    rfl
  · rw [← hh2]
    simp

/-- Claim C10: `solve` mutates only the field `u`: the config and the
derived `dx`, `dt` are unchanged in the returned state, and the final `u`
equals the last history entry. -/
theorem heat_C10 (s : SolverState) (w : Bool) (hist : List (List ℚ))
    (s' : SolverState) (h : solve s = Except.ok (w, hist, s')) :
    s'.config = s.config ∧ s'.dx = s.dx ∧ s'.dt = s.dt ∧
    hist.getLast? = some s'.u := by
  obtain ⟨⟨l, x, t, n, a⟩, u, dx, dt⟩ := s
  rcases a with _ | av
  · exact Except.noConfusion h
  rcases x with _ | xv
  · exact Except.noConfusion h
  rcases n with _ | nv
  · exact Except.noConfusion h
  have h' : Except.ok (decide ((1 : ℚ)/2 < av * dt / dx ^ 2),
      (solveLoop (av * dt / dx ^ 2) xv nv [u] u).1,
      SolverState.mk ⟨l, some xv, t, some nv, some av⟩
        (solveLoop (av * dt / dx ^ 2) xv nv [u] u).2 dx dt)
      = Except.ok (w, hist, s') := h
  simp only [Except.ok.injEq, Prod.mk.injEq] at h'
  obtain ⟨-, hh, hs⟩ := h'
  refine ⟨by rw [← hs], by rw [← hs], by rw [← hs], ?_⟩
  rw [← hh, ← hs]
  exact solveLoop_getLast? _ _ _ _ _ rfl

/-- Claim C5, counterexample to the claim as stated: a config lacking only
`alpha` does NOT fail at construction: `_initialize_grid` never reads
`alpha`, so construction succeeds (`alpha` is only read by `solve`). -/
theorem heat_C5_counterexample :
    ∃ s, initializeGrid rcNoAlpha = Except.ok s := ⟨_, rfl⟩

/-- Claim C5, amended: constructing a solver from a config lacking any of
the four fields `length`, `num_points_x`, `total_time`, `num_points_t`
fails at construction with a `KeyError` (those four keys are read before
any arithmetic, so this holds for arbitrary raw configs); an otherwise
well-formed config (field values satisfying the validity constraints)
lacking only `alpha` constructs successfully, and the missing-field error
is raised by the first call to `solve` instead. -/
theorem heat_C5_amended (c : Config) (hc : c.Valid) :
    (∀ rc : RawConfig,
      rc.length = none ∨ rc.num_points_x = none ∨ rc.total_time = none ∨
        rc.num_points_t = none → ∃ e, initializeGrid rc = Except.error e) ∧
    (∃ s, initializeGrid (dropAlpha c) = Except.ok s ∧
      ∃ e, solve s = Except.error e) := by
  constructor
  · rintro ⟨l, x, t, n, a⟩ hmiss
    rcases l with _ | lv
    · exact ⟨_, rfl⟩
    rcases x with _ | xv
    · exact ⟨_, rfl⟩
    rcases t with _ | tv
    · exact ⟨_, rfl⟩
    rcases n with _ | nv
    · exact ⟨_, rfl⟩
    simp at hmiss
  · exact ⟨_, rfl, _, rfl⟩

/-! ## Witness configurations -/

lemma cfgW_valid : cfgW.Valid := by
  refine ⟨by norm_num [cfgW], by norm_num [cfgW], by norm_num [cfgW],
    by norm_num [cfgW], by norm_num [cfgW]⟩

lemma cfgS_valid : cfgS.Valid := by
  refine ⟨by norm_num [cfgS], by norm_num [cfgS], by norm_num [cfgS],
    by norm_num [cfgS], by norm_num [cfgS]⟩

lemma cfgT_valid : cfgT.Valid := by
  refine ⟨by norm_num [cfgT], by norm_num [cfgT], by norm_num [cfgT],
    by norm_num [cfgT], by norm_num [cfgT]⟩

lemma cfgS_rVal : cfgS.rVal = 1/2 := by
  norm_num [cfgS, Config.rVal, Config.dxVal, Config.dtVal]

lemma solve_initState (c : Config) :
    solve (SolverState.mk c.toRaw (initField c.num_points_x) c.dxVal c.dtVal) =
      Except.ok (decide ((1 : ℚ)/2 < c.rVal), solverHistory c, solverFinal c) := by
  rw [solve_toRaw]
  rfl

lemma solve_solverFinal (c : Config) :
    solve (solverFinal c) =
      Except.ok (decide ((1 : ℚ)/2 < c.rVal), secondHistory c,
        SolverState.mk c.toRaw
          (fieldAt c.rVal c.num_points_x (solverFinal c).u c.num_points_t)
          c.dxVal c.dtVal) := by
  show solve (SolverState.mk c.toRaw (solverFinal c).u c.dxVal c.dtVal) = _
  rw [solve_toRaw]
  rfl

/-! ## Witnesses -/

/-- Witness for C1 at `cfgW`, step `t = 0`, interior index `i = 1`. -/
theorem heat_C1_witness :
    ((solverHistory cfgW).getD (0 + 1) []).getD 1 0 =
      ((solverHistory cfgW).getD 0 []).getD 1 0 +
        cfgW.rVal * (((solverHistory cfgW).getD 0 []).getD (1 + 1) 0 -
          2 * ((solverHistory cfgW).getD 0 []).getD 1 0 +
          ((solverHistory cfgW).getD 0 []).getD (1 - 1) 0) :=
  heat_C1 cfgW cfgW_valid _ _ _ (runSolver_eq cfgW) 0 (by decide) 1 (by decide)
    (by decide)

/-- Witness for C2 at `cfgW`. -/
theorem heat_C2_witness :
    (solverHistory cfgW).length = cfgW.num_points_t + 1 ∧
    (∀ f ∈ solverHistory cfgW, f.length = cfgW.num_points_x) ∧
    (solverHistory cfgW).getD 0 [] = initField cfgW.num_points_x ∧
    ∀ t < cfgW.num_points_t,
      (solverHistory cfgW).getD (t + 1) [] =
        innerLoop cfgW.rVal ((solverHistory cfgW).getD t []) cfgW.num_points_x :=
  heat_C2 cfgW cfgW_valid _ _ _ (runSolver_eq cfgW)

/-- Witness for C3 at `cfgW`, final snapshot `t = 1`. -/
theorem heat_C3_witness :
    ((solverHistory cfgW).getD 1 []).getD 0 0 = 0 ∧
    ((solverHistory cfgW).getD 1 []).getD (cfgW.num_points_x - 1) 0 = 0 :=
  heat_C3 cfgW cfgW_valid _ _ _ (runSolver_eq cfgW) 1 (by decide)

/-- Witness for C4 at `cfgW`. -/
theorem heat_C4_witness :
    ((solverHistory cfgW).getD 0 []).getD (cfgW.num_points_x / 2) 0 = 1 ∧
    ∀ i < cfgW.num_points_x, i ≠ cfgW.num_points_x / 2 →
      ((solverHistory cfgW).getD 0 []).getD i 0 = 0 :=
  heat_C4 cfgW cfgW_valid _ _ _ (runSolver_eq cfgW)

/-- Witness for C5 (amended) at concrete inputs: a raw config lacking
`length` (construction fails), and the valid test-suite config `cfgT` with
`alpha` dropped (`rcNoAlpha`: construction succeeds, `solve` fails). -/
theorem heat_C5_amended_witness :
    (∃ e, initializeGrid
      (RawConfig.mk none (some 10) (some (1/100)) (some 10) (some (1/100))) =
        Except.error e) ∧
    (∃ s, initializeGrid rcNoAlpha = Except.ok s ∧
      ∃ e, solve s = Except.error e) :=
  ⟨(heat_C5_amended cfgT cfgT_valid).1
    (RawConfig.mk none (some 10) (some (1/100)) (some 10) (some (1/100)))
    (Or.inl rfl),
   (heat_C5_amended cfgT cfgT_valid).2⟩

/-- Witness for C6 at `cfgW` (whose `r = 4` exceeds the threshold). -/
theorem heat_C6_witness :
    ∃ w hist s', runSolver cfgW = Except.ok (w, hist, s') ∧
      hist.length = cfgW.num_points_t + 1 ∧
      hist = solverHistory cfgW ∧
      (w = true ↔ (1 : ℚ)/2 < cfgW.rVal) :=
  heat_C6 cfgW cfgW_valid

/-- Witness for C7 at the stable config `cfgS` (`r = 1/2`), step `t = 0`. -/
theorem heat_C7_witness :
    ∃ M : ℚ, ((solverHistory cfgS).getD 0 []).maximum = (M : WithBot ℚ) ∧
      ∀ x ∈ (solverHistory cfgS).getD (0 + 1) [], x ≤ M :=
  heat_C7 cfgS cfgS_valid (le_of_eq cfgS_rVal) _ _ _ (runSolver_eq cfgS) 0
    (by decide)

/-- Witness for C8: two instances built from `cfgW.toRaw`. -/
theorem heat_C8_witness :
    solve (SolverState.mk cfgW.toRaw (initField cfgW.num_points_x)
        cfgW.dxVal cfgW.dtVal) =
      solve (SolverState.mk cfgW.toRaw (initField cfgW.num_points_x)
        cfgW.dxVal cfgW.dtVal) :=
  heat_C8 cfgW.toRaw _ _ (initializeGrid_toRaw cfgW) (initializeGrid_toRaw cfgW)

/-- Witness for C9 at `cfgW`: the second call continues from the first
call's final field. -/
theorem heat_C9_witness :
    (solverHistory cfgW).getLast? = some ((secondHistory cfgW).getD 0 []) ∧
    (secondHistory cfgW).length = cfgW.num_points_t + 1 :=
  heat_C9 cfgW cfgW_valid _ _ _ (runSolver_eq cfgW) _ _ _ (solve_solverFinal cfgW)

/-- Witness for C10 at the freshly constructed `cfgW` instance. -/
theorem heat_C10_witness :
    (solverFinal cfgW).config =
      (SolverState.mk cfgW.toRaw (initField cfgW.num_points_x)
        cfgW.dxVal cfgW.dtVal).config ∧
    (solverFinal cfgW).dx =
      (SolverState.mk cfgW.toRaw (initField cfgW.num_points_x)
        cfgW.dxVal cfgW.dtVal).dx ∧
    (solverFinal cfgW).dt =
      (SolverState.mk cfgW.toRaw (initField cfgW.num_points_x)
        cfgW.dxVal cfgW.dtVal).dt ∧
    (solverHistory cfgW).getLast? = some (solverFinal cfgW).u :=
  heat_C10 _ _ _ _ (solve_initState cfgW)

end HeatEq
